import Mathlib

/-!
Verification of the TodoCLI task manager core (Go packages `todo`, `storage`).

Shallow embedding conventions:
* Go `time.Time` is modelled as `Int` (nanoseconds since the epoch);
  `time.Time.Before` is `<` and `time.Time.After` is `>`.  Each Go call to
  `time.Now()` inside an operation is modelled by an explicit `now : GoTime`
  argument to that operation.
* Go `int` is modelled as `Int` (ids and the watermark stay far below the
  64-bit range in any realizable collection, so wraparound is immaterial).
* The Go `Priority` type is `type Priority string`; it is modelled as `String`.
  `storage.Task` and `todo.Task` have identical fields and
  `Manager.LoadTasks` / `Manager.SaveTasks` copy them field by field, so a
  single `Task` structure models both.
* File I/O always succeeds in the model: `storage.FileStorage.SaveTasks` is a
  no-op and `storage.FileStorage.LoadTasks` is applied to an already-parsed
  document (`TaskList`).  Go `strings.TrimSpace`, `strings.ToLower` and
  `strings.Contains` are modelled by `trimSpace`, `toLowerStr` and
  `containsSub` below.
* `sort.Slice` is standard-library code, not code of this repository.  It is
  modelled by its documented contract: the result is a permutation of the
  input that is sorted with respect to the provided less function, and "the
  sort is not guaranteed to be stable: equal elements may be reversed from
  their original order" (Go documentation).  See `IsSortSliceResult`.
-/

namespace Todo

/-- Model of Go `time.Time`: nanoseconds since the epoch. -/
abbrev GoTime := Int

/-- Go constant `PriorityLow = "low"` (internal/todo/task.go). -/
def PriorityLow : String := "low"

/-- Go constant `PriorityMedium = "medium"` (internal/todo/task.go). -/
def PriorityMedium : String := "medium"

/-- Go constant `PriorityHigh = "high"` (internal/todo/task.go). -/
def PriorityHigh : String := "high"

/-- Go struct `Task` (internal/todo/task.go and storage/file.go; identical
fields, copied verbatim between the two layers). -/
structure Task where
  id : Int
  title : String
  completed : Bool
  dueDate : Option GoTime
  priority : String
  createdAt : GoTime
  updatedAt : GoTime
deriving DecidableEq, Repr

/-- Go `ValidatePriority` (internal/todo/task.go): the switch accepts exactly
the three constants. -/
def ValidatePriority (priority : String) : Bool :=
  priority = PriorityLow || priority = PriorityMedium || priority = PriorityHigh

/-- Go `NewTask` (internal/todo/task.go): completed=false, priority=medium,
created_at = updated_at = now, no due date. -/
def NewTask (id : Int) (title : String) (now : GoTime) : Task :=
  { id := id, title := title, completed := false, dueDate := none,
    priority := PriorityMedium, createdAt := now, updatedAt := now }

/-- Go `Task.Complete` (internal/todo/task.go). -/
def Task.Complete (t : Task) (now : GoTime) : Task :=
  { t with completed := true, updatedAt := now }

/-- Go `Task.SetPriority` (internal/todo/task.go). -/
def Task.SetPriority (t : Task) (priority : String) (now : GoTime) : Task :=
  { t with priority := priority, updatedAt := now }

/-- Go `Task.SetDueDate` (internal/todo/task.go). -/
def Task.SetDueDate (t : Task) (dueDate : GoTime) (now : GoTime) : Task :=
  { t with dueDate := some dueDate, updatedAt := now }

/-- Go `Task.IsOverdue` (internal/todo/task.go):
`if t.DueDate == nil || t.Completed { return false }; return time.Now().After(*t.DueDate)`. -/
def Task.IsOverdue (t : Task) (now : GoTime) : Bool :=
  match t.dueDate with
  | none => false
  | some d => if t.completed then false else decide (now > d)

/-- Model of Go `strings.TrimSpace`: remove leading and trailing whitespace
characters.  (Implemented over the character list so that it reduces inside
the kernel; `String.trim` is definitionally opaque to `decide`.) -/
def trimSpace (s : String) : String :=
  String.mk (((s.data.dropWhile Char.isWhitespace).reverse.dropWhile
    Char.isWhitespace).reverse)

/-- Model of Go `strings.ToLower`. -/
def toLowerStr (s : String) : String :=
  String.mk (s.data.map Char.toLower)

/-- Model of Go `strings.Contains` on character lists: `sub` occurs as a
contiguous run inside `s` (every string contains the empty string). -/
def containsSub (s sub : List Char) : Bool :=
  match s with
  | [] => sub.isEmpty
  | c :: rest => sub.isPrefixOf (c :: rest) || containsSub rest sub

/-- Go struct `TaskList` (storage/file.go): the parsed persisted document.
The advisory `last_update` field is not load-bearing and is omitted. -/
structure TaskList where
  tasks : List Task
  nextID : Int
deriving DecidableEq, Repr

/-- The watermark computation of Go `FileStorage.LoadTasks` (storage/file.go):
if the stored `next_id` is zero it is recomputed by the loop
`NextID = 1; for task { if task.ID >= NextID { NextID = task.ID + 1 } }`,
otherwise it is returned unchanged. -/
def loadedNextID (doc : TaskList) : Int :=
  if doc.nextID = 0 then
    doc.tasks.foldl (fun acc t => if t.id ≥ acc then t.id + 1 else acc) 1
  else doc.nextID

/-- Go struct `Manager` (internal/todo/manager.go): the in-memory collection
and the watermark.  The storage handle is modelled away (I/O always
succeeds). -/
structure Manager where
  tasks : List Task
  nextID : Int
deriving DecidableEq, Repr

/-- Go `Manager.LoadTasks` composed with `FileStorage.LoadTasks` applied to an
already-parsed document: the manager takes the stored tasks (field-by-field
copy) and the (possibly repaired) watermark. -/
def Manager.LoadTasksFrom (doc : TaskList) : Manager :=
  { tasks := doc.tasks, nextID := loadedNextID doc }

/-- Go `Manager.SaveTasks` composed with `FileStorage.SaveTasks`: the document
written to disk (field-by-field copy of tasks plus the watermark). -/
def Manager.SaveDoc (m : Manager) : TaskList :=
  { tasks := m.tasks, nextID := m.nextID }

/-- The distinct error conditions of the manager layer
(internal/todo/manager.go):
`emptyTitle` is `errors.New("task title cannot be empty")`,
`invalidPriority p` is `fmt.Errorf("invalid priority: %s ...", p)`,
`invalidID` is `ErrInvalidID`, `notFound` is `ErrTaskNotFound`, and
`alreadyCompleted id` is `fmt.Errorf("task %d is already completed", id)`. -/
inductive TodoError where
  | emptyTitle : TodoError
  | invalidPriority : String → TodoError
  | invalidID : TodoError
  | notFound : TodoError
  | alreadyCompleted : Int → TodoError
deriving DecidableEq, Repr

/-- Go `Manager.AddTask` (internal/todo/manager.go).  The pair returned is
(manager state after the call, result).  On a validation error the Go method
returns before touching `m.tasks` or `m.nextID`, so the state component is the
input state unchanged. -/
def Manager.AddTask (m : Manager) (title : String) (priority : String)
    (dueDate : Option GoTime) (now : GoTime) : Manager × Except TodoError Task :=
  if trimSpace title = "" then
    (m, Except.error TodoError.emptyTitle)
  else
    let task0 := NewTask m.nextID (trimSpace title) now
    if priority ≠ "" ∧ ValidatePriority priority = false then
      (m, Except.error (TodoError.invalidPriority priority))
    else
      let task1 := if priority ≠ "" then task0.SetPriority priority now else task0
      let task2 := match dueDate with
        | some d => task1.SetDueDate d now
        | none => task1
      ({ m with tasks := m.tasks ++ [task2], nextID := m.nextID + 1 },
       Except.ok task2)

/-- Go `Manager.GetTask` (internal/todo/manager.go): reject non-positive ids,
then linear scan for the first task with the given id. -/
def Manager.GetTask (m : Manager) (id : Int) : Except TodoError Task :=
  if id ≤ 0 then
    Except.error TodoError.invalidID
  else
    match m.tasks.find? (fun t => t.id = id) with
    | some t => Except.ok t
    | none => Except.error TodoError.notFound

/-- Helper for `Manager.CompleteTask`: Go mutates the found task through a
pointer, which replaces exactly the first task carrying the id. -/
def replaceFirst (ts : List Task) (id : Int) (new : Task) : List Task :=
  match ts with
  | [] => []
  | t :: rest => if t.id = id then new :: rest else t :: replaceFirst rest id new

/-- Go `Manager.CompleteTask` (internal/todo/manager.go). -/
def Manager.CompleteTask (m : Manager) (id : Int) (now : GoTime) :
    Manager × Except TodoError Task :=
  match m.GetTask id with
  | Except.error e => (m, Except.error e)
  | Except.ok task =>
    if task.completed then
      (m, Except.error (TodoError.alreadyCompleted id))
    else
      let task1 := task.Complete now
      ({ m with tasks := replaceFirst m.tasks id task1 }, Except.ok task1)

/-- Helper for `Manager.DeleteTask`: remove the first task with the given id,
returning a snapshot of it and the remaining list, or `none` when absent. -/
def deleteFirst (ts : List Task) (id : Int) : Option (Task × List Task) :=
  match ts with
  | [] => none
  | t :: rest =>
    if t.id = id then some (t, rest)
    else
      match deleteFirst rest id with
      | some (d, rest2) => some (d, t :: rest2)
      | none => none

/-- Go `Manager.DeleteTask` (internal/todo/manager.go): reject non-positive
ids, remove the first matching task (order of remaining tasks preserved),
return a snapshot of the removed task. -/
def Manager.DeleteTask (m : Manager) (id : Int) : Manager × Except TodoError Task :=
  if id ≤ 0 then
    (m, Except.error TodoError.invalidID)
  else
    match deleteFirst m.tasks id with
    | some (d, rest) => ({ m with tasks := rest }, Except.ok d)
    | none => (m, Except.error TodoError.notFound)

/-- Go struct `FilterOptions` (internal/todo/manager.go). -/
structure FilterOptions where
  showCompleted : Bool
  showPending : Bool
  priority : String
  search : String
  sortBy : String
deriving DecidableEq, Repr

/-- The completion filter of the `Manager.ListTasks` loop: the task survives
the first `continue` chain. -/
def passesCompletion (filter : FilterOptions) (task : Task) : Bool :=
  if filter.showCompleted && !filter.showPending then task.completed
  else if filter.showPending && !filter.showCompleted then !task.completed
  else true

/-- The priority filter of the `Manager.ListTasks` loop: exact match when the
filter priority is non-empty. -/
def passesPriority (filter : FilterOptions) (task : Task) : Bool :=
  if filter.priority ≠ "" then task.priority = filter.priority else true

/-- The search filter of the `Manager.ListTasks` loop, modelling
`strings.Contains(strings.ToLower(title), strings.ToLower(search))`. -/
def passesSearch (filter : FilterOptions) (task : Task) : Bool :=
  if filter.search ≠ "" then
    containsSub (toLowerStr task.title).data (toLowerStr filter.search).data
  else true

/-- The filtering pass of Go `Manager.ListTasks` (internal/todo/manager.go):
the loop keeps, in order, exactly the tasks surviving all three `continue`
chains. -/
def filterTasks (filter : FilterOptions) (ts : List Task) : List Task :=
  ts.filter (fun t => passesCompletion filter t && passesPriority filter t &&
    passesSearch filter t)

/-- The `priorityOrder` map inside `Manager.sortTasks`: Go map lookup yields
the zero value 0 for any string other than the three constants. -/
def priorityOrder (priority : String) : Int :=
  if priority = PriorityHigh then 3
  else if priority = PriorityMedium then 2
  else if priority = PriorityLow then 1
  else 0

/-- The less function passed to `sort.Slice` for `sortBy = "priority"`. -/
def lessPriority (a b : Task) : Bool :=
  decide (priorityOrder a.priority > priorityOrder b.priority)

/-- The less function passed to `sort.Slice` for `sortBy = "due"`: tasks
without due dates go to the end, ties among undated tasks compare ids,
dated tasks compare with `Before`. -/
def lessDue (a b : Task) : Bool :=
  match a.dueDate, b.dueDate with
  | none, none => decide (a.id < b.id)
  | none, some _ => false
  | some _, none => true
  | some x, some y => decide (x < y)

/-- The less function passed to `sort.Slice` for `sortBy = "created"`. -/
def lessCreated (a b : Task) : Bool :=
  decide (a.createdAt < b.createdAt)

/-- The less function passed to `sort.Slice` in the default branch
(`"id"` or any unrecognized value). -/
def lessID (a b : Task) : Bool :=
  decide (a.id < b.id)

/-- The dispatch of Go `Manager.sortTasks` (internal/todo/manager.go) on the
`sortBy` string. -/
def sortLess (sortBy : String) : Task → Task → Bool :=
  if sortBy = "priority" then lessPriority
  else if sortBy = "due" then lessDue
  else if sortBy = "created" then lessCreated
  else lessID

/-- Documented contract of Go `sort.Slice` (standard library, not repository
code): the result is a permutation of the input, sorted with respect to the
less function (no element is strictly less than an earlier one).  Per the Go
documentation the sort is NOT guaranteed to be stable: equal elements may be
reversed from their original order, so the contract pins nothing further. -/
def IsSortSliceResult (less : Task → Task → Bool) (input result : List Task) : Prop :=
  List.Perm input result ∧ List.Pairwise (fun a b => less b a = false) result

/-- Go `Manager.ListTasks` (internal/todo/manager.go): filter, then sort the
filtered slice with `sort.Slice`.  Relational because `sort.Slice` leaves the
order of equal elements open. -/
def IsListTasksResult (m : Manager) (filter : FilterOptions) (result : List Task) : Prop :=
  IsSortSliceResult (sortLess filter.sortBy) (filterTasks filter m.tasks) result

instance (less : Task → Task → Bool) (input result : List Task) :
    Decidable (IsSortSliceResult less input result) :=
  inferInstanceAs (Decidable (List.Perm input result ∧
    List.Pairwise (fun a b => less b a = false) result))

instance (m : Manager) (filter : FilterOptions) (result : List Task) :
    Decidable (IsListTasksResult m filter result) :=
  inferInstanceAs (Decidable (IsSortSliceResult (sortLess filter.sortBy)
    (filterTasks filter m.tasks) result))

/-- The seven counters of Go `Manager.GetStats` (a `map[string]int` with fixed
keys). -/
structure Stats where
  total : Nat
  completed : Nat
  pending : Nat
  overdue : Nat
  high : Nat
  medium : Nat
  low : Nat
deriving DecidableEq, Repr

/-- The loop body of Go `Manager.GetStats` for one task. -/
def statsStep (now : GoTime) (s : Stats) (task : Task) : Stats :=
  let s :=
    if task.completed then { s with completed := s.completed + 1 }
    else
      let s := { s with pending := s.pending + 1 }
      if task.IsOverdue now then { s with overdue := s.overdue + 1 } else s
  if task.priority = PriorityHigh then { s with high := s.high + 1 }
  else if task.priority = PriorityMedium then { s with medium := s.medium + 1 }
  else if task.priority = PriorityLow then { s with low := s.low + 1 }
  else s

/-- Go `Manager.GetStats` (internal/todo/manager.go): `total` starts at
`len(m.tasks)`, the other counters start at 0 and are accumulated by the
loop. -/
def Manager.GetStats (m : Manager) (now : GoTime) : Stats :=
  m.tasks.foldl (statsStep now)
    { total := m.tasks.length, completed := 0, pending := 0, overdue := 0,
      high := 0, medium := 0, low := 0 }

/-- The watermark invariant of the spec: `next_id` is strictly greater than
every task id in the collection. -/
def WatermarkInv (m : Manager) : Prop :=
  ∀ t ∈ m.tasks, t.id < m.nextID

instance (m : Manager) : Decidable (WatermarkInv m) :=
  inferInstanceAs (Decidable (∀ t ∈ m.tasks, t.id < m.nextID))

/-- Reachable manager states: a state loaded from a persisted document whose
stored `next_id` is either unset/zero (the repaired case) or a valid watermark
(which the spec requires of every persisted document, and which every document
written by `SaveTasks` from a reachable state satisfies), closed under the
mutating operations. -/
inductive Reachable : Manager → Prop where
  | load (doc : TaskList)
      (hdoc : doc.nextID = 0 ∨ ∀ t ∈ doc.tasks, t.id < doc.nextID) :
      Reachable (Manager.LoadTasksFrom doc)
  | add (m m' : Manager) (title priority : String) (dueDate : Option GoTime)
      (now : GoTime) (r : Except TodoError Task) (hm : Reachable m)
      (hstep : m.AddTask title priority dueDate now = (m', r)) :
      Reachable m'
  | complete (m m' : Manager) (id : Int) (now : GoTime)
      (r : Except TodoError Task) (hm : Reachable m)
      (hstep : m.CompleteTask id now = (m', r)) :
      Reachable m'
  | delete (m m' : Manager) (id : Int) (r : Except TodoError Task)
      (hm : Reachable m)
      (hstep : m.DeleteTask id = (m', r)) :
      Reachable m'

/-- One manager operation of a trace: an `addTask` attempt or a `deleteTask`
attempt. -/
inductive Op where
  | add (title priority : String) (dueDate : Option GoTime) (now : GoTime) : Op
  | del (id : Int) : Op
deriving Repr

/-- Run one operation; the second component is the id assigned by a
successful `addTask`, `none` otherwise. -/
def runOp (m : Manager) (op : Op) : Manager × Option Int :=
  match op with
  | Op.add title priority dueDate now =>
    match m.AddTask title priority dueDate now with
    | (m', Except.ok task) => (m', some task.id)
    | (m', Except.error _) => (m', none)
  | Op.del id =>
    match m.DeleteTask id with
    | (m', _) => (m', none)

/-- Run a trace of operations; the second component lists, in order, the ids
assigned by the successful `addTask` calls. -/
def runOps (m : Manager) : List Op → Manager × List Int
  | [] => (m, [])
  | op :: rest =>
    let step := runOp m op
    let tail := runOps step.1 rest
    (tail.1, match step.2 with
      | some i => i :: tail.2
      | none => tail.2)

/-! ## Helper lemmas -/

theorem addTask_ok_spec (m m' : Manager) (title priority : String)
    (dueDate : Option GoTime) (now : GoTime) (task : Task)
    (h : m.AddTask title priority dueDate now = (m', Except.ok task)) :
    m'.nextID = m.nextID + 1 ∧ task.id = m.nextID ∧ m'.tasks = m.tasks ++ [task] := by
  unfold Manager.AddTask at h
  split at h
  · simp at h
  · split at h
    · simp at h
    · rw [Prod.mk.injEq] at h
      obtain ⟨h1, h2⟩ := h
      rw [Except.ok.injEq] at h2
      subst h1
      subst h2
      refine ⟨rfl, ?_, rfl⟩
      cases dueDate <;>
        simp [NewTask, Task.SetPriority, Task.SetDueDate] <;> split <;> rfl

theorem addTask_error_spec (m m' : Manager) (title priority : String)
    (dueDate : Option GoTime) (now : GoTime) (e : TodoError)
    (h : m.AddTask title priority dueDate now = (m', Except.error e)) :
    m' = m := by
  unfold Manager.AddTask at h
  split at h
  · rw [Prod.mk.injEq] at h
    exact h.1.symm
  · split at h
    · rw [Prod.mk.injEq] at h
      exact h.1.symm
    · simp at h

/-! ## Claims C7, C8, C9, C10 -/

/-- Claim C7: for every state and every title that is empty after trimming
leading/trailing whitespace, `addTask` fails with the empty-title
`ValidationError` and leaves the state unchanged: no task is created, the
collection is unmodified, and `next_id` is unchanged. -/
theorem C7_addTask_emptyTitle (m : Manager) (title priority : String)
    (dueDate : Option GoTime) (now : GoTime) (h : trimSpace title = "") :
    m.AddTask title priority dueDate now = (m, Except.error TodoError.emptyTitle) := by
  unfold Manager.AddTask
  rw [if_pos h]

theorem C7_addTask_emptyTitle_witness :
    ({ tasks := [], nextID := 5 } : Manager).AddTask "   " "high" (some 3) 7 =
      ({ tasks := [], nextID := 5 }, Except.error TodoError.emptyTitle) :=
  C7_addTask_emptyTitle _ _ _ _ _ (by decide)

/-- Claim C8: for every state and every id of a task whose completed flag is
already true, `completeTask id` fails with `AlreadyCompleted` and returns the
state unchanged — in particular the task (and its `updated_at` timestamp) is
untouched by the failed call. -/
theorem C8_completeTask_alreadyCompleted (m : Manager) (id : Int) (now : GoTime)
    (task : Task) (hget : m.GetTask id = Except.ok task)
    (hc : task.completed = true) :
    m.CompleteTask id now = (m, Except.error (TodoError.alreadyCompleted id)) := by
  unfold Manager.CompleteTask
  rw [hget]
  simp [hc]

theorem C8_completeTask_alreadyCompleted_witness :
    ({ tasks := [⟨1, "a", true, some 5, "medium", 0, 3⟩], nextID := 2 } : Manager).CompleteTask 1 99 =
      ({ tasks := [⟨1, "a", true, some 5, "medium", 0, 3⟩], nextID := 2 },
       Except.error (TodoError.alreadyCompleted 1)) :=
  C8_completeTask_alreadyCompleted _ 1 99 ⟨1, "a", true, some 5, "medium", 0, 3⟩ rfl rfl

/-- Claim C9: for every task and every current time, `isOverdue` returns true
iff the task has a due date, is not completed, and the due date is strictly
before the current time; consequently a completed task is never overdue. -/
theorem C9_isOverdue_iff (t : Task) (now : GoTime) :
    (t.IsOverdue now = true ↔
      ∃ d, t.dueDate = some d ∧ t.completed = false ∧ d < now) ∧
    (t.completed = true → t.IsOverdue now = false) := by
  cases hd : t.dueDate with
  | none => simp [Task.IsOverdue, hd]
  | some d =>
    cases hc : t.completed <;> simp [Task.IsOverdue, hd, hc]

theorem C9_isOverdue_iff_witness :
    (⟨1, "a", true, some 5, "medium", 0, 0⟩ : Task).IsOverdue 10 = false ∧
    (⟨2, "b", false, some 5, "medium", 0, 0⟩ : Task).IsOverdue 10 = true :=
  ⟨(C9_isOverdue_iff ⟨1, "a", true, some 5, "medium", 0, 0⟩ 10).2 rfl,
   (C9_isOverdue_iff ⟨2, "b", false, some 5, "medium", 0, 0⟩ 10).1.mpr
     ⟨5, rfl, rfl, by decide⟩⟩

/-- Claim C10: for every state, every title that is non-empty after trimming
and every due date, `addTask` with the empty string as priority succeeds (the
empty string means "priority not provided" and is not validated) and the
returned task has priority medium. -/
theorem C10_addTask_emptyPriority (m : Manager) (title : String)
    (dueDate : Option GoTime) (now : GoTime) (h : trimSpace title ≠ "") :
    ∃ (m' : Manager) (task : Task),
      m.AddTask title "" dueDate now = (m', Except.ok task) ∧
      task.priority = PriorityMedium := by
  unfold Manager.AddTask
  rw [if_neg h]
  have hguard : ¬(("" : String) ≠ "" ∧ ValidatePriority "" = false) := by simp
  rw [if_neg hguard]
  cases dueDate with
  | none => exact ⟨_, _, rfl, by simp [NewTask]⟩
  | some d => exact ⟨_, _, rfl, by simp [NewTask, Task.SetDueDate]⟩

theorem C10_addTask_emptyPriority_witness :
    ∃ (m' : Manager) (task : Task),
      ({ tasks := [], nextID := 1 } : Manager).AddTask "Buy milk" "" (some 99) 5 =
        (m', Except.ok task) ∧ task.priority = PriorityMedium :=
  C10_addTask_emptyPriority _ _ _ _ (by decide)

/-! ## Claim C6: monotonic id assignment -/

theorem deleteTask_nextID (m : Manager) (id : Int) :
    (m.DeleteTask id).1.nextID = m.nextID := by
  unfold Manager.DeleteTask
  split
  · rfl
  · split <;> rfl

theorem runOp_some_spec (m : Manager) (op : Op) (i : Int)
    (h : (runOp m op).2 = some i) :
    i = m.nextID ∧ (runOp m op).1.nextID = m.nextID + 1 := by
  cases op with
  | add title priority d now =>
    rcases hadd : m.AddTask title priority d now with ⟨m', r⟩
    cases r with
    | ok task =>
      have hs := addTask_ok_spec m m' title priority d now task hadd
      simp only [runOp] at h ⊢
      rw [hadd] at h ⊢
      simp only at h ⊢
      rw [Option.some.injEq] at h
      exact ⟨h ▸ hs.2.1.symm ▸ rfl, hs.1⟩
    | error e =>
      simp only [runOp] at h
      rw [hadd] at h
      simp at h
  | del id =>
    simp only [runOp] at h
    simp at h

theorem runOp_nextID_mono (m : Manager) (op : Op) :
    m.nextID ≤ (runOp m op).1.nextID := by
  cases op with
  | add title priority d now =>
    rcases hadd : m.AddTask title priority d now with ⟨m', r⟩
    cases r with
    | ok task =>
      have hs := addTask_ok_spec m m' title priority d now task hadd
      simp only [runOp]
      rw [hadd]
      simp only
      omega
    | error e =>
      have hs := addTask_error_spec m m' title priority d now e hadd
      simp only [runOp]
      rw [hadd]
      simp [hs]
  | del id =>
    simp only [runOp]
    have h0 := deleteTask_nextID m id
    rcases hdel : m.DeleteTask id with ⟨m', r⟩
    rw [hdel] at h0
    simp only at h0 ⊢
    omega

theorem runOps_ids_lb (ops : List Op) :
    ∀ (m : Manager), ∀ i ∈ (runOps m ops).2, m.nextID ≤ i := by
  induction ops with
  | nil =>
    intro m i hi
    simp [runOps] at hi
  | cons op rest ih =>
    intro m i hi
    simp only [runOps] at hi
    rcases hs : (runOp m op).2 with _ | j
    · rw [hs] at hi
      have h1 := ih (runOp m op).1 i hi
      have h2 := runOp_nextID_mono m op
      omega
    · rw [hs] at hi
      rcases List.mem_cons.mp hi with h | h
      · have hj := runOp_some_spec m op j hs
        omega
      · have hj := runOp_some_spec m op j hs
        have h1 := ih (runOp m op).1 i h
        omega

theorem runOps_ids_sorted (ops : List Op) :
    ∀ (m : Manager), List.Pairwise (fun a b => a < b) (runOps m ops).2 := by
  induction ops with
  | nil =>
    intro m
    simp [runOps]
  | cons op rest ih =>
    intro m
    simp only [runOps]
    rcases hs : (runOp m op).2 with _ | j
    · exact ih _
    · refine List.Pairwise.cons ?_ (ih _)
      intro b hb
      have hj := runOp_some_spec m op j hs
      have hb2 := runOps_ids_lb rest (runOp m op).1 b hb
      omega

/-- Claim C6: over any trace of `addTask` calls interleaved with `deleteTask`
calls, the ids assigned by the successful `addTask` calls are strictly
increasing and never repeat (so a deleted id is never reassigned), and each
successful `addTask` assigns `id = next_id` and advances `next_id` by
exactly 1. -/
theorem C6_monotonic_ids (m : Manager) (ops : List Op) :
    List.Pairwise (fun a b => a < b) (runOps m ops).2 ∧
    (runOps m ops).2.Nodup ∧
    (∀ (title priority : String) (dueDate : Option GoTime) (now : GoTime)
      (m' : Manager) (task : Task),
      m.AddTask title priority dueDate now = (m', Except.ok task) →
      m'.nextID = m.nextID + 1 ∧ task.id = m.nextID) := by
  refine ⟨runOps_ids_sorted ops m, ?_, ?_⟩
  · exact List.Pairwise.imp (fun h => ne_of_lt h) (runOps_ids_sorted ops m)
  · intro title priority dueDate now m' task h
    exact ⟨(addTask_ok_spec m m' title priority dueDate now task h).1,
           (addTask_ok_spec m m' title priority dueDate now task h).2.1⟩

theorem C6_monotonic_ids_witness :
    List.Pairwise (fun a b => a < b)
      (runOps { tasks := [], nextID := 1 }
        [Op.add "a" "" none 0, Op.add "b" "" none 0, Op.add "c" "" none 0,
         Op.del 2, Op.add "d" "" none 0]).2 ∧
    (runOps { tasks := [], nextID := 1 }
        [Op.add "a" "" none 0, Op.add "b" "" none 0, Op.add "c" "" none 0,
         Op.del 2, Op.add "d" "" none 0]).2 = [1, 2, 3, 4] ∧
    (({ tasks := [⟨1, "a", false, none, "medium", 0, 0⟩], nextID := 2 } : Manager).nextID =
        ({ tasks := [], nextID := 1 } : Manager).nextID + 1 ∧
      (⟨1, "a", false, none, "medium", 0, 0⟩ : Task).id =
        ({ tasks := [], nextID := 1 } : Manager).nextID) :=
  ⟨(C6_monotonic_ids { tasks := [], nextID := 1 }
      [Op.add "a" "" none 0, Op.add "b" "" none 0, Op.add "c" "" none 0,
       Op.del 2, Op.add "d" "" none 0]).1,
   by decide,
   (C6_monotonic_ids { tasks := [], nextID := 1 } []).2.2 "a" "" none 0
     { tasks := [⟨1, "a", false, none, "medium", 0, 0⟩], nextID := 2 }
     ⟨1, "a", false, none, "medium", 0, 0⟩ rfl⟩

/-! ## Claim C2: the watermark invariant on reachable states -/

theorem recompute_mono (ts : List Task) : ∀ (acc : Int),
    acc ≤ ts.foldl (fun acc t => if t.id ≥ acc then t.id + 1 else acc) acc := by
  induction ts with
  | nil => intro acc; simp
  | cons hd rest ih =>
    intro acc
    simp only [List.foldl_cons]
    have h1 : acc ≤ if hd.id ≥ acc then hd.id + 1 else acc := by split <;> omega
    exact le_trans h1 (ih _)

theorem recompute_gt (ts : List Task) : ∀ (acc : Int), ∀ t ∈ ts,
    t.id < ts.foldl (fun acc t => if t.id ≥ acc then t.id + 1 else acc) acc := by
  induction ts with
  | nil => intro acc t ht; simp at ht
  | cons hd rest ih =>
    intro acc t ht
    simp only [List.foldl_cons]
    rcases List.mem_cons.mp ht with h | h
    · subst h
      split
      · have hm := recompute_mono rest (t.id + 1)
        omega
      · have hm := recompute_mono rest acc
        omega
    · exact ih _ t h

theorem loadTasksFrom_inv (doc : TaskList)
    (hdoc : doc.nextID = 0 ∨ ∀ t ∈ doc.tasks, t.id < doc.nextID) :
    WatermarkInv (Manager.LoadTasksFrom doc) := by
  intro t ht
  simp only [Manager.LoadTasksFrom] at ht ⊢
  unfold loadedNextID
  by_cases h0 : doc.nextID = 0
  · rw [if_pos h0]
    exact recompute_gt doc.tasks 1 t ht
  · rw [if_neg h0]
    rcases hdoc with h | h
    · exact absurd h h0
    · exact h t ht

theorem replaceFirst_mem (id : Int) (new t : Task) : ∀ (ts : List Task),
    t ∈ replaceFirst ts id new → t ∈ ts ∨ t = new := by
  intro ts
  induction ts with
  | nil => intro ht; simp [replaceFirst] at ht
  | cons hd rest ih =>
    intro ht
    unfold replaceFirst at ht
    split at ht
    · rcases List.mem_cons.mp ht with h | h
      · right; exact h
      · left; exact List.mem_cons_of_mem hd h
    · rcases List.mem_cons.mp ht with h | h
      · left; exact h ▸ List.mem_cons_self hd rest
      · rcases ih h with h2 | h2
        · left; exact List.mem_cons_of_mem hd h2
        · right; exact h2

theorem deleteFirst_subset (id : Int) (d : Task) : ∀ (ts rest : List Task),
    deleteFirst ts id = some (d, rest) → ∀ t ∈ rest, t ∈ ts := by
  intro ts
  induction ts with
  | nil => intro rest h; simp [deleteFirst] at h
  | cons hd tl ih =>
    intro rest h t ht
    unfold deleteFirst at h
    split at h
    · rw [Option.some.injEq, Prod.mk.injEq] at h
      rw [← h.2] at ht
      exact List.mem_cons_of_mem hd ht
    · split at h
      · rw [Option.some.injEq, Prod.mk.injEq] at h
        rw [← h.2] at ht
        rcases List.mem_cons.mp ht with h2 | h2
        · exact h2 ▸ List.mem_cons_self hd tl
        · rename_i rest2 heq
          exact List.mem_cons_of_mem hd (ih rest2 (by rw [heq, h.1]) t h2)
      · exact absurd h (by simp)

theorem getTask_mem (m : Manager) (id : Int) (task : Task)
    (h : m.GetTask id = Except.ok task) : task ∈ m.tasks ∧ task.id = id := by
  unfold Manager.GetTask at h
  split at h
  · simp at h
  · split at h
    · rename_i t heq
      rw [Except.ok.injEq] at h
      subst h
      refine ⟨List.mem_of_find?_eq_some heq, ?_⟩
      have := List.find?_some heq
      simpa using this
    · simp at h

theorem addTask_inv (m m' : Manager) (title priority : String)
    (dueDate : Option GoTime) (now : GoTime) (r : Except TodoError Task)
    (hstep : m.AddTask title priority dueDate now = (m', r))
    (hinv : WatermarkInv m) : WatermarkInv m' := by
  cases r with
  | error e => exact (addTask_error_spec m m' title priority dueDate now e hstep) ▸ hinv
  | ok task =>
    obtain ⟨h1, h2, h3⟩ := addTask_ok_spec m m' title priority dueDate now task hstep
    intro t ht
    rw [h3] at ht
    rcases List.mem_append.mp ht with h | h
    · have := hinv t h
      omega
    · rw [List.mem_singleton] at h
      subst h
      omega

theorem completeTask_inv (m m' : Manager) (id : Int) (now : GoTime)
    (r : Except TodoError Task) (hstep : m.CompleteTask id now = (m', r))
    (hinv : WatermarkInv m) : WatermarkInv m' := by
  unfold Manager.CompleteTask at hstep
  cases hget : m.GetTask id with
  | error e =>
    rw [hget] at hstep
    simp only at hstep
    rw [Prod.mk.injEq] at hstep
    exact hstep.1 ▸ hinv
  | ok task =>
    rw [hget] at hstep
    simp only at hstep
    split at hstep
    · rw [Prod.mk.injEq] at hstep
      exact hstep.1 ▸ hinv
    · rw [Prod.mk.injEq] at hstep
      intro t ht
      rw [← hstep.1] at ht
      simp only at ht
      rcases replaceFirst_mem id (task.Complete now) t m.tasks ht with h | h
      · have := hinv t h
        rw [← hstep.1]
        exact this
      · rw [← hstep.1]
        subst h
        have hm := (getTask_mem m id task hget).1
        exact hinv task hm

theorem deleteTask_inv (m m' : Manager) (id : Int)
    (r : Except TodoError Task) (hstep : m.DeleteTask id = (m', r))
    (hinv : WatermarkInv m) : WatermarkInv m' := by
  unfold Manager.DeleteTask at hstep
  split at hstep
  · rw [Prod.mk.injEq] at hstep
    exact hstep.1 ▸ hinv
  · split at hstep
    · rename_i d rest heq
      rw [Prod.mk.injEq] at hstep
      intro t ht
      rw [← hstep.1] at ht ⊢
      simp only at ht ⊢
      exact hinv t (deleteFirst_subset id d m.tasks rest heq t ht)
    · rw [Prod.mk.injEq] at hstep
      exact hstep.1 ▸ hinv

/-- Claim C2: the watermark invariant `next_id > id of every task` holds in
every reachable state — after `load` (including the load of a persisted
document whose stored `next_id` is unset/zero, which is recomputed as
`1 + max id`) and after every `addTask`, `completeTask` and `deleteTask`. -/
theorem C2_watermark (m : Manager) (h : Reachable m) : WatermarkInv m := by
  induction h with
  | load doc hdoc => exact loadTasksFrom_inv doc hdoc
  | add m m' title priority dueDate now r hm hstep ih =>
    exact addTask_inv m m' title priority dueDate now r hstep ih
  | complete m m' id now r hm hstep ih =>
    exact completeTask_inv m m' id now r hstep ih
  | delete m m' id r hm hstep ih =>
    exact deleteTask_inv m m' id r hstep ih

theorem C2_watermark_witness :
    WatermarkInv { tasks := [⟨5, "x", false, none, "low", 0, 0⟩,
                             ⟨6, "a", false, none, "medium", 3, 3⟩], nextID := 7 } :=
  C2_watermark _
    (Reachable.add { tasks := [⟨5, "x", false, none, "low", 0, 0⟩], nextID := 6 }
      { tasks := [⟨5, "x", false, none, "low", 0, 0⟩,
                  ⟨6, "a", false, none, "medium", 3, 3⟩], nextID := 7 }
      "a" "" none 3
      (Except.ok ⟨6, "a", false, none, "medium", 3, 3⟩)
      (Reachable.load { tasks := [⟨5, "x", false, none, "low", 0, 0⟩], nextID := 0 }
        (Or.inl rfl))
      rfl)

/-! ## Claim C4: the completion filter -/

/-- Claim C4: if exactly one of `showCompleted` / `showPending` is true,
`listTasks` returns exactly the tasks with that completion status (subject to
the other active filters); if both flags are equal (both true or both false)
no completion restriction applies, and with both false and no other filters
the full collection is returned.  Stated for every result permitted by the
`sort.Slice` contract, up to the reordering done by the sort. -/
theorem C4_completion_filter (m : Manager) (filter : FilterOptions) :
    (filter.showCompleted = true → filter.showPending = false →
      ∀ result, IsListTasksResult m filter result →
        List.Perm result (m.tasks.filter (fun t =>
          t.completed && passesPriority filter t && passesSearch filter t))) ∧
    (filter.showPending = true → filter.showCompleted = false →
      ∀ result, IsListTasksResult m filter result →
        List.Perm result (m.tasks.filter (fun t =>
          !t.completed && passesPriority filter t && passesSearch filter t))) ∧
    (filter.showCompleted = filter.showPending →
      ∀ result, IsListTasksResult m filter result →
        List.Perm result (m.tasks.filter (fun t =>
          passesPriority filter t && passesSearch filter t))) ∧
    (filter.showCompleted = false → filter.showPending = false →
      filter.priority = "" → filter.search = "" →
      ∀ result, IsListTasksResult m filter result →
        List.Perm result m.tasks) := by
  refine ⟨?_, ?_, ?_, ?_⟩
  · intro h1 h2 result hres
    have heq : filterTasks filter m.tasks = m.tasks.filter (fun t =>
        t.completed && passesPriority filter t && passesSearch filter t) := by
      unfold filterTasks
      apply List.filter_congr
      intro t ht
      simp [passesCompletion, h1, h2]
    exact (heq ▸ hres.1).symm
  · intro h1 h2 result hres
    have heq : filterTasks filter m.tasks = m.tasks.filter (fun t =>
        !t.completed && passesPriority filter t && passesSearch filter t) := by
      unfold filterTasks
      apply List.filter_congr
      intro t ht
      simp [passesCompletion, h1, h2]
    exact (heq ▸ hres.1).symm
  · intro h1 result hres
    have heq : filterTasks filter m.tasks = m.tasks.filter (fun t =>
        passesPriority filter t && passesSearch filter t) := by
      unfold filterTasks
      apply List.filter_congr
      intro t ht
      cases h2 : filter.showPending <;>
        rw [h2] at h1 <;> simp [passesCompletion, h1, h2]
    exact (heq ▸ hres.1).symm
  · intro h1 h2 h3 h4 result hres
    have heq : filterTasks filter m.tasks = m.tasks := by
      unfold filterTasks
      have : ∀ t ∈ m.tasks, (passesCompletion filter t && passesPriority filter t &&
          passesSearch filter t) = true := by
        intro t ht
        simp [passesCompletion, passesPriority, passesSearch, h1, h2, h3, h4]
      rw [List.filter_congr this, List.filter_true]
    exact (heq ▸ hres.1).symm

theorem C4_completion_filter_witness :
    (List.Perm [(⟨2, "b", true, none, "medium", 0, 0⟩ : Task)]
      (([⟨1, "a", false, none, "medium", 0, 0⟩, ⟨2, "b", true, none, "medium", 0, 0⟩] : List Task).filter
        (fun t => t.completed &&
          passesPriority { showCompleted := true, showPending := false, priority := "", search := "", sortBy := "id" } t &&
          passesSearch { showCompleted := true, showPending := false, priority := "", search := "", sortBy := "id" } t))) ∧
    (List.Perm [(⟨1, "a", false, none, "medium", 0, 0⟩ : Task)]
      (([⟨1, "a", false, none, "medium", 0, 0⟩, ⟨2, "b", true, none, "medium", 0, 0⟩] : List Task).filter
        (fun t => !t.completed &&
          passesPriority { showCompleted := false, showPending := true, priority := "", search := "", sortBy := "id" } t &&
          passesSearch { showCompleted := false, showPending := true, priority := "", search := "", sortBy := "id" } t))) ∧
    (List.Perm [(⟨1, "a", false, none, "medium", 0, 0⟩ : Task), ⟨2, "b", true, none, "medium", 0, 0⟩]
      (([⟨1, "a", false, none, "medium", 0, 0⟩, ⟨2, "b", true, none, "medium", 0, 0⟩] : List Task).filter
        (fun t =>
          passesPriority { showCompleted := true, showPending := true, priority := "", search := "", sortBy := "id" } t &&
          passesSearch { showCompleted := true, showPending := true, priority := "", search := "", sortBy := "id" } t))) ∧
    (List.Perm [(⟨1, "a", false, none, "medium", 0, 0⟩ : Task), ⟨2, "b", true, none, "medium", 0, 0⟩]
      ([(⟨1, "a", false, none, "medium", 0, 0⟩ : Task), ⟨2, "b", true, none, "medium", 0, 0⟩] : List Task)) :=
  ⟨(C4_completion_filter
      { tasks := [⟨1, "a", false, none, "medium", 0, 0⟩, ⟨2, "b", true, none, "medium", 0, 0⟩], nextID := 3 }
      { showCompleted := true, showPending := false, priority := "", search := "", sortBy := "id" }).1
      rfl rfl [⟨2, "b", true, none, "medium", 0, 0⟩] (by decide),
   (C4_completion_filter
      { tasks := [⟨1, "a", false, none, "medium", 0, 0⟩, ⟨2, "b", true, none, "medium", 0, 0⟩], nextID := 3 }
      { showCompleted := false, showPending := true, priority := "", search := "", sortBy := "id" }).2.1
      rfl rfl [⟨1, "a", false, none, "medium", 0, 0⟩] (by decide),
   (C4_completion_filter
      { tasks := [⟨1, "a", false, none, "medium", 0, 0⟩, ⟨2, "b", true, none, "medium", 0, 0⟩], nextID := 3 }
      { showCompleted := true, showPending := true, priority := "", search := "", sortBy := "id" }).2.2.1
      rfl [⟨1, "a", false, none, "medium", 0, 0⟩, ⟨2, "b", true, none, "medium", 0, 0⟩] (by decide),
   (C4_completion_filter
      { tasks := [⟨1, "a", false, none, "medium", 0, 0⟩, ⟨2, "b", true, none, "medium", 0, 0⟩], nextID := 3 }
      { showCompleted := false, showPending := false, priority := "", search := "", sortBy := "id" }).2.2.2
      rfl rfl rfl rfl [⟨1, "a", false, none, "medium", 0, 0⟩, ⟨2, "b", true, none, "medium", 0, 0⟩]
      (by decide)⟩

/-! ## Claim C5: the due-date sort order -/

/-- The per-pair ordering claimed for `sortBy = "due"`: dated before undated,
dated pairs in ascending due-date order, undated pairs in ascending id
order. -/
def dueOrderedPair (a b : Task) : Bool :=
  match a.dueDate, b.dueDate with
  | some x, some y => decide (x ≤ y)
  | none, none => decide (a.id ≤ b.id)
  | none, some _ => false
  | some _, none => true

/-- Claim C5: every `listTasks` result for `sortBy = "due"` lists the dated
tasks in ascending due-date order, places every undated task after all dated
tasks, and lists the undated tasks among themselves in ascending id order. -/
theorem C5_due_sort (m : Manager) (filter : FilterOptions) (result : List Task)
    (hsort : filter.sortBy = "due") (hres : IsListTasksResult m filter result) :
    List.Pairwise (fun a b => dueOrderedPair a b = true) result := by
  have hp := hres.2
  refine hp.imp ?_
  intro a b h
  rw [hsort] at h
  have hless : lessDue b a = false := by simpa [sortLess] using h
  unfold lessDue at hless
  unfold dueOrderedPair
  cases ha : a.dueDate with
  | none =>
    cases hb : b.dueDate with
    | none =>
      simp [ha, hb] at hless ⊢
      omega
    | some y =>
      simp [ha, hb] at hless
  | some x =>
    cases hb : b.dueDate with
    | none => simp [ha, hb]
    | some y =>
      simp [ha, hb] at hless ⊢
      exact hless

theorem C5_due_sort_witness :
    List.Pairwise (fun a b => dueOrderedPair a b = true)
      [(⟨3, "c", false, some 3, "low", 2, 2⟩ : Task),
       ⟨2, "b", true, some 5, "high", 1, 2⟩,
       ⟨1, "a", false, none, "medium", 0, 0⟩] :=
  C5_due_sort
    { tasks := [⟨1, "a", false, none, "medium", 0, 0⟩,
                ⟨2, "b", true, some 5, "high", 1, 2⟩,
                ⟨3, "c", false, some 3, "low", 2, 2⟩], nextID := 4 }
    { showCompleted := true, showPending := true, priority := "", search := "",
      sortBy := "due" }
    [⟨3, "c", false, some 3, "low", 2, 2⟩,
     ⟨2, "b", true, some 5, "high", 1, 2⟩,
     ⟨1, "a", false, none, "medium", 0, 0⟩]
    rfl (by decide)

/-! ## Claim C1: the priority sort

The grouping part (high before medium before low) holds for every result the
`sort.Slice` contract permits.  The stability part does not: `sort.Slice` is
documented as "not guaranteed to be stable: equal elements may be reversed
from their original order" (and its pdqsort implementation does reorder equal
elements on slices longer than 12), so the code guarantees no relative order
among equal-priority tasks.  A stable result would require `sort.SliceStable`.
-/

/-- Claim C1 as stated is false on the code: with two medium-priority tasks
(ids 1 and 2, in that order in the collection), the reversed output `[id 2,
id 1]` is a permitted `sort.Slice` result for the priority less function —
the contract allows equal elements to be reversed — yet it does not preserve
the relative order of the equal-priority tasks, so `listTasks` does not
guarantee the claimed stable order. -/
theorem C1_counterexample :
    ¬ (∀ (m : Manager) (filter : FilterOptions) (result : List Task),
        filter.sortBy = "priority" → IsListTasksResult m filter result →
        List.Pairwise
          (fun a b => priorityOrder b.priority ≤ priorityOrder a.priority) result ∧
        ∀ p, result.filter (fun t => t.priority = p) =
          (filterTasks filter m.tasks).filter (fun t => t.priority = p)) := by
  intro hclaim
  have h := (hclaim
    { tasks := [⟨1, "a", false, none, "medium", 0, 0⟩,
                ⟨2, "b", false, none, "medium", 0, 0⟩], nextID := 3 }
    { showCompleted := true, showPending := true, priority := "", search := "",
      sortBy := "priority" }
    [⟨2, "b", false, none, "medium", 0, 0⟩, ⟨1, "a", false, none, "medium", 0, 0⟩]
    rfl (by decide)).2 PriorityMedium
  exact absurd h (by decide)

/-- Claim C1, amended: every `listTasks` result for `sortBy = "priority"` is a
permutation of the filtered tasks in which every high-priority task precedes
every medium-priority task and every medium-priority task precedes every
low-priority one (the priority rank 3/2/1/0 is non-increasing along the
result); the relative order of equal-priority tasks is not guaranteed, since
`sort.Slice` is not stable. -/
theorem C1_priority_sort_amended (m : Manager) (filter : FilterOptions)
    (result : List Task) (hsort : filter.sortBy = "priority")
    (hres : IsListTasksResult m filter result) :
    List.Perm (filterTasks filter m.tasks) result ∧
    List.Pairwise
      (fun a b => priorityOrder b.priority ≤ priorityOrder a.priority) result := by
  refine ⟨hres.1, ?_⟩
  refine hres.2.imp ?_
  intro a b h
  rw [hsort] at h
  have hless : lessPriority b a = false := by simpa [sortLess] using h
  simp [lessPriority] at hless
  exact hless

theorem C1_priority_sort_amended_witness :
    List.Perm
      (filterTasks
        { showCompleted := true, showPending := true, priority := "", search := "",
          sortBy := "priority" }
        [⟨1, "one", false, none, "low", 0, 0⟩,
         ⟨2, "two", false, none, "high", 1, 1⟩,
         ⟨3, "three", false, none, "medium", 2, 2⟩])
      [⟨2, "two", false, none, "high", 1, 1⟩,
       ⟨3, "three", false, none, "medium", 2, 2⟩,
       ⟨1, "one", false, none, "low", 0, 0⟩] ∧
    List.Pairwise
      (fun a b => priorityOrder b.priority ≤ priorityOrder a.priority)
      [(⟨2, "two", false, none, "high", 1, 1⟩ : Task),
       ⟨3, "three", false, none, "medium", 2, 2⟩,
       ⟨1, "one", false, none, "low", 0, 0⟩] :=
  C1_priority_sort_amended
    { tasks := [⟨1, "one", false, none, "low", 0, 0⟩,
                ⟨2, "two", false, none, "high", 1, 1⟩,
                ⟨3, "three", false, none, "medium", 2, 2⟩], nextID := 4 }
    { showCompleted := true, showPending := true, priority := "", search := "",
      sortBy := "priority" }
    [⟨2, "two", false, none, "high", 1, 1⟩,
     ⟨3, "three", false, none, "medium", 2, 2⟩,
     ⟨1, "one", false, none, "low", 0, 0⟩]
    rfl (by decide)

/-! ## Claim C3: stats consistency -/

theorem statsStep_foldl (now : GoTime) : ∀ (ts : List Task) (s : Stats),
    ts.foldl (statsStep now) s =
      { total := s.total,
        completed := s.completed + ts.countP (fun t => t.completed),
        pending := s.pending + ts.countP (fun t => !t.completed),
        overdue := s.overdue + ts.countP (fun t => !t.completed && t.IsOverdue now),
        high := s.high + ts.countP (fun t => t.priority = PriorityHigh),
        medium := s.medium + ts.countP (fun t => t.priority = PriorityMedium),
        low := s.low + ts.countP (fun t => t.priority = PriorityLow) } := by
  intro ts
  induction ts with
  | nil => intro s; simp
  | cons t rest ih =>
    intro s
    rw [List.foldl_cons, ih]
    simp only [PriorityHigh, PriorityMedium, PriorityLow] at ih ⊢
    by_cases h1 : t.priority = "high"
    · by_cases hc : t.completed <;> by_cases ho : t.IsOverdue now <;>
        simp [statsStep, PriorityHigh, PriorityMedium, PriorityLow,
          List.countP_cons, hc, ho, h1, Stats.mk.injEq] <;>
        omega
    · by_cases h2 : t.priority = "medium"
      · by_cases hc : t.completed <;> by_cases ho : t.IsOverdue now <;>
          simp [statsStep, PriorityHigh, PriorityMedium, PriorityLow,
            List.countP_cons, hc, ho, h1, h2, Stats.mk.injEq] <;>
          omega
      · by_cases h3 : t.priority = "low"
        · by_cases hc : t.completed <;> by_cases ho : t.IsOverdue now <;>
            simp [statsStep, PriorityHigh, PriorityMedium, PriorityLow,
              List.countP_cons, hc, ho, h1, h2, h3, Stats.mk.injEq] <;>
            omega
        · by_cases hc : t.completed <;> by_cases ho : t.IsOverdue now <;>
            simp [statsStep, PriorityHigh, PriorityMedium, PriorityLow,
              List.countP_cons, hc, ho, h1, h2, h3, Stats.mk.injEq] <;>
            omega

theorem getStats_counts (m : Manager) (now : GoTime) :
    m.GetStats now =
      { total := m.tasks.length,
        completed := m.tasks.countP (fun t => t.completed),
        pending := m.tasks.countP (fun t => !t.completed),
        overdue := m.tasks.countP (fun t => !t.completed && t.IsOverdue now),
        high := m.tasks.countP (fun t => t.priority = PriorityHigh),
        medium := m.tasks.countP (fun t => t.priority = PriorityMedium),
        low := m.tasks.countP (fun t => t.priority = PriorityLow) } := by
  unfold Manager.GetStats
  rw [statsStep_foldl]
  simp

theorem countP_bool_complement (p : Task → Bool) : ∀ (ts : List Task),
    ts.countP p + ts.countP (fun t => !(p t)) = ts.length := by
  intro ts
  induction ts with
  | nil => simp
  | cons t rest ih =>
    by_cases h : p t <;> simp [List.countP_cons, h] <;> omega

theorem countP_priorities : ∀ (ts : List Task),
    (∀ t ∈ ts, ValidatePriority t.priority = true) →
    ts.countP (fun t => t.priority = PriorityHigh) +
    ts.countP (fun t => t.priority = PriorityMedium) +
    ts.countP (fun t => t.priority = PriorityLow) = ts.length := by
  intro ts
  induction ts with
  | nil => intro h; simp
  | cons t rest ih =>
    intro h
    have ht := h t (List.mem_cons_self t rest)
    have hr := ih (fun u hu => h u (List.mem_cons_of_mem t hu))
    unfold ValidatePriority at ht
    simp only [PriorityHigh, PriorityMedium, PriorityLow] at ht hr ⊢
    rcases (by simpa using ht : (t.priority = "low" ∨
        t.priority = "medium") ∨ t.priority = "high") with (h1 | h1) | h1 <;>
      simp [List.countP_cons, h1] <;>
      omega

/-- Claim C3 as stated is false on the code: the `GetStats` priority switch
counts only the three valid priority strings, and `LoadTasks` accepts
arbitrary priority strings from the persisted document without validation, so
a collection holding one task with priority `"urgent"` has
`high + medium + low = 0` while `total = 1`. -/
theorem C3_counterexample :
    ¬ (∀ (m : Manager) (now : GoTime),
        (m.GetStats now).completed + (m.GetStats now).pending = (m.GetStats now).total ∧
        (m.GetStats now).high + (m.GetStats now).medium + (m.GetStats now).low =
          (m.GetStats now).total ∧
        (m.GetStats now).overdue ≤ (m.GetStats now).pending) := by
  intro h
  have h2 := (h { tasks := [⟨1, "a", false, none, "urgent", 0, 0⟩], nextID := 2 } 0).2.1
  exact absurd h2 (by decide)

/-- Claim C3, amended: `completed + pending = total` and `overdue ≤ pending`
hold for every collection; `high + medium + low = total` additionally requires
every task in the collection to carry one of the three valid priority strings
(which holds for all tasks created through `addTask`, but not for arbitrary
persisted documents, which `LoadTasks` does not validate). -/
theorem C3_stats_amended (m : Manager) (now : GoTime) :
    ((m.GetStats now).completed + (m.GetStats now).pending = (m.GetStats now).total) ∧
    ((m.GetStats now).overdue ≤ (m.GetStats now).pending) ∧
    ((∀ t ∈ m.tasks, ValidatePriority t.priority = true) →
      (m.GetStats now).high + (m.GetStats now).medium + (m.GetStats now).low =
        (m.GetStats now).total) := by
  rw [getStats_counts]
  refine ⟨?_, ?_, ?_⟩
  · simpa using countP_bool_complement (fun t => t.completed) m.tasks
  · simp only
    apply List.countP_mono_left
    intro t ht hp
    simp at hp ⊢
    exact hp.1
  · intro h
    simpa using countP_priorities m.tasks h

theorem C3_stats_amended_witness :
    (({ tasks := [⟨1, "a", false, some 2, "high", 0, 0⟩,
                  ⟨2, "b", true, none, "medium", 0, 1⟩], nextID := 3 } : Manager).GetStats 5).completed +
      (({ tasks := [⟨1, "a", false, some 2, "high", 0, 0⟩,
                    ⟨2, "b", true, none, "medium", 0, 1⟩], nextID := 3 } : Manager).GetStats 5).pending =
      (({ tasks := [⟨1, "a", false, some 2, "high", 0, 0⟩,
                    ⟨2, "b", true, none, "medium", 0, 1⟩], nextID := 3 } : Manager).GetStats 5).total ∧
    (({ tasks := [⟨1, "a", false, some 2, "high", 0, 0⟩,
                  ⟨2, "b", true, none, "medium", 0, 1⟩], nextID := 3 } : Manager).GetStats 5).high +
      (({ tasks := [⟨1, "a", false, some 2, "high", 0, 0⟩,
                    ⟨2, "b", true, none, "medium", 0, 1⟩], nextID := 3 } : Manager).GetStats 5).medium +
      (({ tasks := [⟨1, "a", false, some 2, "high", 0, 0⟩,
                    ⟨2, "b", true, none, "medium", 0, 1⟩], nextID := 3 } : Manager).GetStats 5).low =
      (({ tasks := [⟨1, "a", false, some 2, "high", 0, 0⟩,
                    ⟨2, "b", true, none, "medium", 0, 1⟩], nextID := 3 } : Manager).GetStats 5).total :=
  ⟨(C3_stats_amended
      { tasks := [⟨1, "a", false, some 2, "high", 0, 0⟩,
                  ⟨2, "b", true, none, "medium", 0, 1⟩], nextID := 3 } 5).1,
   (C3_stats_amended
      { tasks := [⟨1, "a", false, some 2, "high", 0, 0⟩,
                  ⟨2, "b", true, none, "medium", 0, 1⟩], nextID := 3 } 5).2.2
      (by decide)⟩

end Todo
